import Mathlib

/-!
Shallow embedding of the "open-in-cursor" Raycast extension.

The repository has two duplicated browse-and-open command variants
(`src/src/open-in-cursor.tsx` and `src/unnamed/part_001`) plus an
"open all selected Finder items" command (`src/unnamed/part_000`).
This file embeds their core logic: the bounded persisted recency list
(`addRecentFolder`), the folder scanner (`getFoldersFromPath`), the
workspace-file resolver (`findWorkspaceFileInFolder`), the set difference
shown as "All Folders" (`otherFolders`), the single-folder open flow
(`openInCursor`, `openInCursorV2`) and the batch open command
(`openAllSelected`).  File-system reads, the launch of the external
editor and the Finder selection are external effects; they enter the
embedding as explicit snapshot / oracle parameters.  The host key-value
store (`LocalStorage`) is an association list of string keys to string
values, and the JSON encoding used for persistence is modelled
explicitly (`stringifyFolders`, `jsonParse`).
-/

/-- A folder entry: display name and absolute path
(`interface Folder` in both command variants). -/
structure Folder where
  name : String
  path : String
deriving DecidableEq

/-- Fixed storage key, `src/src/open-in-cursor.tsx` line 22. -/
def RECENT_FOLDERS_KEY : String := "recentFolders"

/-- Capacity of the recency list, `src/src/open-in-cursor.tsx` line 23. -/
def MAX_RECENT_FOLDERS : Nat := 10

/-- Fixed storage key of the second variant, `src/unnamed/part_001` line 27. -/
def RECENT_FOLDERS_KEY_V2 : String := "recentFolders"

/-- Capacity of the recency list in the second variant,
`src/unnamed/part_001` line 28. -/
def MAX_RECENT_FOLDERS_V2 : Nat := 10

/-- The pure list update performed by `addRecentFolder` in
`src/src/open-in-cursor.tsx` lines 42-45:
`[folder, ...state.recentFolders.filter((f) => f.path !== folder.path)].slice(0, MAX_RECENT_FOLDERS)`. -/
def insertOrPromote (recentFolders : List Folder) (folder : Folder) : List Folder :=
  (folder :: recentFolders.filter (fun f => f.path != folder.path)).take MAX_RECENT_FOLDERS

/-- The pure list update performed by `addRecentFolder` in
`src/unnamed/part_001` lines 48-51 (duplicated command variant). -/
def insertOrPromoteV2 (recentFolders : List Folder) (folder : Folder) : List Folder :=
  (folder :: recentFolders.filter (fun f => f.path != folder.path)).take MAX_RECENT_FOLDERS_V2

/-- Folding a sequence of inserts into an initially empty recency list. -/
def insertAll (fs : List Folder) : List Folder :=
  fs.foldl insertOrPromote []

/-- The "other folders" derived view, `src/src/open-in-cursor.tsx`
lines 123-126 (identical in `src/unnamed/part_001` lines 164-167):
build a set of recent paths and keep the scanned folders whose path is
not in it. -/
def otherFolders (folders recentFolders : List Folder) : List Folder :=
  let recentSet := recentFolders.map Folder.path
  folders.filter (fun f => !(recentSet.contains f.path))

/-- Kind of a directory entry as reported by `fs.readdirSync`
with `withFileTypes: true` (a `Dirent` can be a regular file, a
directory, or something else such as a symlink or socket). -/
inductive EntryKind where
  | file
  | directory
  | other
deriving DecidableEq

/-- A directory entry (Node `fs.Dirent`): base name plus kind. -/
structure Dirent where
  name : String
  kind : EntryKind
deriving DecidableEq

def Dirent.isFile (e : Dirent) : Bool := e.kind == EntryKind.file

def Dirent.isDirectory (e : Dirent) : Bool := e.kind == EntryKind.directory

/-- Result of looking at one directory path in the file-system snapshot:
the path does not exist (`fs.existsSync` false), it exists and
`fs.readdirSync` yields the given entries, or reading throws. -/
inductive DirRead where
  | absent
  | entries (list : List Dirent)
  | readError
deriving DecidableEq

/-- `path.join(dirPath, name)` for a simple relative segment. -/
def pathJoin (a b : String) : String := a ++ "/" ++ b

/-- The workspace-descriptor suffix tested in `src/unnamed/part_001`
line 110. -/
def workspaceSuffix : String := ".code-workspace"

/-- JS `String.prototype.endsWith`, used as `entry.name.endsWith(...)`. -/
def strEndsWith (s suffix : String) : Bool := List.isSuffixOf suffix.data s.data

/-- The predicate of `src/unnamed/part_001` line 110:
`entry.isFile() && entry.name.endsWith(".code-workspace")`. -/
def isWorkspaceEntry (e : Dirent) : Bool := e.isFile && strEndsWith e.name workspaceSuffix

/-- `findWorkspaceFileInFolder`, `src/unnamed/part_001` lines 103-117:
`null` when the folder is absent or reading throws, otherwise the first
entry (in enumeration order) that is a file whose name ends in
`.code-workspace`, joined onto the folder path. -/
def findWorkspaceFileInFolder (folderPath : String) (dir : DirRead) : Option String :=
  match dir with
  | .absent => none
  | .readError => none
  | .entries list =>
    match list.find? isWorkspaceEntry with
    | some e => some (pathJoin folderPath e.name)
    | none => none

/-- The target actually launched by `openInCursor` in
`src/unnamed/part_001` lines 122-132: the workspace file when one is
found, else the folder's own path. -/
def resolveOpenTarget (folderPath : String) (dir : DirRead) : String :=
  (findWorkspaceFileInFolder folderPath dir).getD folderPath

/-- `getFoldersFromPath`, `src/src/open-in-cursor.tsx` lines 56-73
(identical in `src/unnamed/part_001` lines 66-83): an absent path or a
read error contributes no folders; otherwise keep the directory entries
and turn each into `{ name: entry.name, path: path.join(dirPath, entry.name) }`. -/
def getFoldersFromPath (dirPath : String) (dir : DirRead) : List Folder :=
  match dir with
  | .absent => []
  | .readError => []
  | .entries list =>
    (list.filter Dirent.isDirectory).map (fun e => { name := e.name, path := pathJoin dirPath e.name })

/-- `SEARCH_PATHS.flatMap(getFoldersFromPath)`: concatenation across the
configured roots in order, each root paired with its snapshot. -/
def scanRoots (roots : List (String × DirRead)) : List Folder :=
  roots.flatMap (fun r => getFoldersFromPath r.1 r.2)

inductive ToastStyle where
  | success
  | failure
deriving DecidableEq

/-- A `showToast(style, title, message)` call. -/
structure ToastMsg where
  style : ToastStyle
  title : String
  message : String
deriving DecidableEq

/-- The host key-value store (`LocalStorage`): latest binding first. -/
def storeSet (storage : List (String × String)) (key value : String) :
    List (String × String) :=
  (key, value) :: storage.filter (fun kv => kv.1 != key)

def storeGet (storage : List (String × String)) (key : String) : Option String :=
  (storage.find? (fun kv => kv.1 == key)).map (fun kv => kv.2)

/-- Modelled from the spec: the persisted value is "a list of `{name, path}`
objects, JSON-encoded"; `JSON.stringify` is host-runtime code, not part of
the repository.  Characters of one serialized `{ name, path }` record,
written in continuation style: `rest` is what follows. -/
def folderChars (f : Folder) (rest : List Char) : List Char :=
  '\x7b' :: '"' :: 'n' :: 'a' :: 'm' :: 'e' :: '"' :: ':' :: '"' ::
    (f.name.data ++ '"' :: ',' :: '"' :: 'p' :: 'a' :: 't' :: 'h' :: '"' :: ':' :: '"' ::
      (f.path.data ++ '"' :: '\x7d' :: rest))

/-- Comma-separated serialized records. -/
def itemsChars : List Folder → List Char → List Char
  | [], rest => rest
  | [f], rest => folderChars f rest
  | f :: g :: t, rest => folderChars f (',' :: itemsChars (g :: t) rest)

/-- Modelled from the spec: `JSON.stringify` applied to a recency array. -/
def stringifyFolders (l : List Folder) : String :=
  String.mk ('[' :: itemsChars l (']' :: []))

/-- A JavaScript value as produced by `JSON.parse`. -/
inductive JSValue where
  | null
  | bool (b : Bool)
  | num (n : Int)
  | str (s : String)
  | arr (elems : List JSValue)
  | obj (fields : List (String × JSValue))

/-- The JS value corresponding to one folder record. -/
def encodeFolder (f : Folder) : JSValue :=
  JSValue.obj [("name", JSValue.str f.name), ("path", JSValue.str f.path)]

/-- Does the value have the shape of a serialized recency list
(an array of two-field `{name, path}` string records)? -/
def isFolderObj : JSValue → Bool
  | JSValue.obj [(k1, JSValue.str _), (k2, JSValue.str _)] =>
    k1 == "name" && k2 == "path"
  | _ => false

def isFolderListJson : JSValue → Bool
  | JSValue.arr xs => xs.all isFolderObj
  | _ => false

/-- A string none of whose characters needs a JSON escape used by the
serializer model (no quote, no backslash). -/
def jsonPlain (s : String) : Bool :=
  s.data.all (fun c => !(c == '"' || c == '\\'))

def isWsChar (c : Char) : Bool := c == ' ' || c == '\n' || c == '\t' || c == '\r'

def skipWs : List Char → List Char
  | [] => []
  | c :: cs => if isWsChar c then skipWs cs else c :: cs

/-- Body of a JSON string literal up to the closing quote (escape
sequences are outside this model and rejected). -/
def takeStringBody : List Char → Option (List Char × List Char)
  | [] => none
  | c :: cs =>
    if c == '"' then some ([], cs)
    else if c == '\\' then none
    else
      match takeStringBody cs with
      | some (body, rest) => some (c :: body, rest)
      | none => none

def takeDigits : List Char → List Char × List Char
  | [] => ([], [])
  | c :: cs =>
    if c.isDigit then
      let p := takeDigits cs
      (c :: p.1, p.2)
    else ([], c :: cs)

def digitsVal (ds : List Char) : Nat :=
  ds.foldl (fun acc c => acc * 10 + (c.toNat - 48)) 0

mutual

/-- Modelled from the spec: a JSON parser standing in for the host
runtime's `JSON.parse` (strings without escape sequences, integers,
`true`/`false`/`null`, arrays, objects).  `fuel` bounds recursion and is
instantiated with the input length plus one. -/
def parseValue : Nat → List Char → Option (JSValue × List Char)
  | 0, _ => none
  | fuel + 1, cs =>
    match skipWs cs with
    | [] => none
    | c :: rest =>
      if c == '"' then
        match takeStringBody rest with
        | some (body, rest2) => some (JSValue.str (String.mk body), rest2)
        | none => none
      else if c == '[' then parseArrayRest fuel rest
      else if c == '\x7b' then parseObjRest fuel rest
      else if c == 't' then
        match rest with
        | 'r' :: 'u' :: 'e' :: rest2 => some (JSValue.bool true, rest2)
        | _ => none
      else if c == 'f' then
        match rest with
        | 'a' :: 'l' :: 's' :: 'e' :: rest2 => some (JSValue.bool false, rest2)
        | _ => none
      else if c == 'n' then
        match rest with
        | 'u' :: 'l' :: 'l' :: rest2 => some (JSValue.null, rest2)
        | _ => none
      else if c == '-' then
        match takeDigits rest with
        | ([], _) => none
        | (ds, rest2) => some (JSValue.num (-(digitsVal ds : Int)), rest2)
      else if c.isDigit then
        match takeDigits (c :: rest) with
        | (ds, rest2) => some (JSValue.num (digitsVal ds), rest2)
      else none

/-- After an opening `[`. -/
def parseArrayRest : Nat → List Char → Option (JSValue × List Char)
  | 0, _ => none
  | fuel + 1, cs =>
    match skipWs cs with
    | [] => none
    | c :: rest =>
      if c == ']' then some (JSValue.arr [], rest)
      else
        match parseArrayItems fuel (c :: rest) with
        | some (vs, rest2) => some (JSValue.arr vs, rest2)
        | none => none

/-- One or more comma-separated array elements up to the closing `]`. -/
def parseArrayItems : Nat → List Char → Option (List JSValue × List Char)
  | 0, _ => none
  | fuel + 1, cs =>
    match parseValue fuel cs with
    | none => none
    | some (v, rest) =>
      match skipWs rest with
      | [] => none
      | c :: rest2 =>
        if c == ',' then
          match parseArrayItems fuel rest2 with
          | some (vs, rest3) => some (v :: vs, rest3)
          | none => none
        else if c == ']' then some ([v], rest2)
        else none

/-- After an opening brace. -/
def parseObjRest : Nat → List Char → Option (JSValue × List Char)
  | 0, _ => none
  | fuel + 1, cs =>
    match skipWs cs with
    | [] => none
    | c :: rest =>
      if c == '\x7d' then some (JSValue.obj [], rest)
      else
        match parseObjItems fuel (c :: rest) with
        | some (ps, rest2) => some (JSValue.obj ps, rest2)
        | none => none

/-- One or more comma-separated key-value pairs up to the closing brace. -/
def parseObjItems : Nat → List Char → Option (List (String × JSValue) × List Char)
  | 0, _ => none
  | fuel + 1, cs =>
    match skipWs cs with
    | [] => none
    | c :: rest =>
      if c == '"' then
        match takeStringBody rest with
        | none => none
        | some (key, rest1) =>
          match skipWs rest1 with
          | [] => none
          | c1 :: rest2 =>
            if c1 == ':' then
              match parseValue fuel rest2 with
              | none => none
              | some (v, rest3) =>
                match skipWs rest3 with
                | [] => none
                | c2 :: rest4 =>
                  if c2 == ',' then
                    match parseObjItems fuel rest4 with
                    | some (ps, rest5) => some ((String.mk key, v) :: ps, rest5)
                    | none => none
                  else if c2 == '\x7d' then some ([(String.mk key, v)], rest4)
                  else none
            else none
      else none

end

/-- Modelled from the spec: `JSON.parse` on the whole string; leftover
non-whitespace input is a parse error (`none`; the runtime throws, which
the caller catches). -/
def jsonParse (s : String) : Option JSValue :=
  match parseValue (s.data.length + 1) s.data with
  | some (v, rest) => if skipWs rest == [] then some v else none
  | none => none

/-- In-memory recency list plus the persisted key-value store. -/
structure RecencyState where
  recentFolders : List Folder
  storage : List (String × String)
deriving DecidableEq

/-- `addRecentFolder` of `src/src/open-in-cursor.tsx` lines 40-48: compute
the updated list, write it JSON-serialized under the fixed key via
`LocalStorage.setItem`, and install it in memory. -/
def addRecentFolder (st : RecencyState) (folder : Folder) : RecencyState :=
  let updatedRecentFolders := insertOrPromote st.recentFolders folder
  { recentFolders := updatedRecentFolders,
    storage := storeSet st.storage RECENT_FOLDERS_KEY (stringifyFolders updatedRecentFolders) }

/-- `addRecentFolder` of `src/unnamed/part_001` lines 46-54 (duplicated
variant). -/
def addRecentFolderV2 (st : RecencyState) (folder : Folder) : RecencyState :=
  let updatedRecentFolders := insertOrPromoteV2 st.recentFolders folder
  { recentFolders := updatedRecentFolders,
    storage := storeSet st.storage RECENT_FOLDERS_KEY_V2 (stringifyFolders updatedRecentFolders) }

/-- What `loadFolders` does with the stored recency value
(`src/src/open-in-cursor.tsx` lines 79-87, `src/unnamed/part_001`
lines 89-97): a missing or falsy value is skipped; otherwise the value is
given to `JSON.parse` and the result — whatever JSON value it is — is
installed verbatim via `setRecentFolders`; a parse error is caught by the
surrounding `try` and surfaced as a failure toast, nothing is thrown to
the caller. -/
inductive LoadRecentOutcome where
  | keptEmpty
  | installed (v : JSValue)
  | parseError (toastTitle : String)

def loadRecent (stored : Option String) : LoadRecentOutcome :=
  match stored with
  | none => LoadRecentOutcome.keptEmpty
  | some s =>
    if s == "" then LoadRecentOutcome.keptEmpty
    else
      match jsonParse s with
      | some v => LoadRecentOutcome.installed v
      | none => LoadRecentOutcome.parseError ("Error reading folders")

/-- The in-memory recency value after the load (the store starts at `[]`;
only a successful parse replaces it). -/
def recentAfterLoad (stored : Option String) : JSValue :=
  match loadRecent stored with
  | LoadRecentOutcome.installed v => v
  | _ => JSValue.arr []

/-- Single-folder open flow of `src/src/open-in-cursor.tsx` lines 93-101:
launch the folder path via the external opener; on success show a success
toast and update the recency store; on failure show a failure toast whose
message is the stringified error, leaving all state untouched. -/
def openInCursor (st : RecencyState) (folder : Folder)
    (launch : String → Except String Unit) : RecencyState × ToastMsg :=
  match launch folder.path with
  | Except.ok _ =>
    (addRecentFolder st folder, ⟨ToastStyle.success, "Opened in Cursor", folder.path⟩)
  | Except.error e => (st, ⟨ToastStyle.failure, "Failed to open in Cursor", e⟩)

/-- Single-folder open flow of `src/unnamed/part_001` lines 119-137: first
resolve a possible workspace file, launch that target, and only on
success update the recency store. -/
def openInCursorV2 (st : RecencyState) (folder : Folder) (dir : DirRead)
    (launch : String → Except String Unit) : RecencyState × ToastMsg :=
  match findWorkspaceFileInFolder folder.path dir with
  | some w =>
    match launch w with
    | Except.ok _ =>
      (addRecentFolderV2 st folder, ⟨ToastStyle.success, "Opened workspace in Cursor", w⟩)
    | Except.error e => (st, ⟨ToastStyle.failure, "Failed to open in Cursor", e⟩)
  | none =>
    match launch folder.path with
    | Except.ok _ =>
      (addRecentFolderV2 st folder, ⟨ToastStyle.success, "Opened in Cursor", folder.path⟩)
    | Except.error e => (st, ⟨ToastStyle.failure, "Failed to open in Cursor", e⟩)

/-- The per-item launch loop of `src/unnamed/part_000` lines 60-66: every
item is attempted in order; a failing launch is caught, logged to the
console, and the loop continues. -/
def runLaunches (items : List String) (launchOk : String → Bool) : List (String × Bool) :=
  match items with
  | [] => []
  | i :: rest => (i, launchOk i) :: runLaunches rest launchOk

/-- `src/unnamed/part_000` line 68. -/
def batchItemType (items : List String) : String :=
  if items.length == 1 then
    (if strEndsWith (items.headD ("")) ("/") then "folder" else "file")
  else "items"

structure BatchOutcome where
  attempted : List (String × Bool)
  toast : ToastMsg
deriving DecidableEq

/-- The open-all-selected command, `src/unnamed/part_000` lines 50-81: an
empty selection gets a failure toast and no launches; otherwise every
item is attempted and a success toast is shown whose title and message
are built from `items.length` alone. -/
def openAllSelected (items : List String) (launchOk : String → Bool) : BatchOutcome :=
  if items.length == 0 then
    { attempted := [],
      toast := { style := ToastStyle.failure, title := "No items selected",
                 message := "Please select a file or folder in Finder" } }
  else
    { attempted := runLaunches items launchOk,
      toast := { style := ToastStyle.success,
                 title := "Opened " ++ toString items.length ++ " " ++
                   batchItemType items ++ " in Cursor",
                 message := if items.length == 1 then items.headD ("")
                            else toString items.length ++ " items opened" } }

/-- Concrete eleven pairwise-distinct folders used as a witness input. -/
def fs11 : List Folder :=
  [⟨"a", "/r/a"⟩, ⟨"b", "/r/b"⟩, ⟨"c", "/r/c"⟩, ⟨"d", "/r/d"⟩, ⟨"e", "/r/e"⟩,
   ⟨"f", "/r/f"⟩, ⟨"g", "/r/g"⟩, ⟨"h", "/r/h"⟩, ⟨"i", "/r/i"⟩, ⟨"j", "/r/j"⟩,
   ⟨"k", "/r/k"⟩]

section Theorems

/-- Helper: a filter by path removes nothing when no element shares the
inserted folder's path. -/
theorem filter_ne_path_eq_self (l : List Folder) (f : Folder)
    (h : ∀ g ∈ l, g.path ≠ f.path) :
    l.filter (fun g => g.path != f.path) = l := by
  apply List.filter_eq_self.mpr
  intro g hg
  simpa using h g hg

/-- Helper: members of `insertOrPromote l f` come from `f :: l`. -/
theorem mem_insertOrPromote (l : List Folder) (f g : Folder)
    (h : g ∈ insertOrPromote l f) : g = f ∨ g ∈ l := by
  unfold insertOrPromote at h
  have h2 := List.take_subset _ _ h
  rw [List.mem_cons] at h2
  rcases h2 with h2 | h2
  · exact Or.inl h2
  · exact Or.inr (List.mem_of_mem_filter h2)

/-- Helper: inserting a folder whose path is fresh for the accumulated
list prepends it and truncates. -/
theorem insertOrPromote_fresh (l : List Folder) (f : Folder)
    (h : ∀ g ∈ l, g.path ≠ f.path) :
    insertOrPromote l f = (f :: l).take MAX_RECENT_FOLDERS := by
  unfold insertOrPromote
  rw [filter_ne_path_eq_self l f h]

/-- Helper: re-truncating after a cons of an already truncated list. -/
theorem take_cons_take (a : Folder) (xs : List Folder) (n : Nat) :
    (a :: xs.take (n + 1)).take (n + 1) = (a :: xs).take (n + 1) := by
  rw [List.take_succ_cons, List.take_succ_cons, List.take_take]
  have h : min n (n + 1) = n := by omega
  rw [h]

/-- Helper: with pairwise distinct paths, folding inserts from the empty
list keeps the most recent `MAX_RECENT_FOLDERS` in most-recent-first
order. -/
theorem insertAll_pairwise_eq (fs : List Folder)
    (hd : fs.Pairwise (fun a b => a.path ≠ b.path)) :
    insertAll fs = fs.reverse.take MAX_RECENT_FOLDERS := by
  induction fs using List.reverseRecOn with
  | nil => rfl
  | append_singleton l a ih =>
    rw [List.pairwise_append] at hd
    obtain ⟨hl, -, hcross⟩ := hd
    have hstep : insertAll (l ++ [a]) = insertOrPromote (insertAll l) a := by
      simp [insertAll, List.foldl_append]
    have hmem : ∀ g ∈ insertAll l, g.path ≠ a.path := by
      intro g hg
      have hg' : g ∈ l := by
        have h1 := ih hl
        rw [h1] at hg
        exact List.mem_reverse.mp (List.take_subset _ _ hg)
      exact hcross g hg' a (List.mem_singleton.mpr rfl)
    rw [hstep, insertOrPromote_fresh _ _ hmem, ih hl, List.reverse_append]
    simp only [List.reverse_cons, List.reverse_nil, List.nil_append, List.singleton_append]
    rw [show MAX_RECENT_FOLDERS = 9 + 1 from rfl]
    exact take_cons_take a l.reverse 9

/-- Helper: the batch loop records an attempt for every item. -/
theorem runLaunches_map_fst (items : List String) (launchOk : String → Bool) :
    (runLaunches items launchOk).map Prod.fst = items := by
  induction items with
  | nil => rfl
  | cons a t ih => simp [runLaunches, ih]

/-- Helper: `find?` returns the head of the filtered list. -/
theorem find_eq_filter_head {α : Type} (l : List α) (pred : α → Bool) :
    l.find? pred = (l.filter pred).head? := by
  induction l with
  | nil => rfl
  | cons a t ih =>
    by_cases h : pred a = true
    · rw [List.find?_cons_of_pos _ h, List.filter_cons_of_pos h]
      rfl
    · rw [List.find?_cons_of_neg _ h, List.filter_cons_of_neg h]
      exact ih

/-- C1: starting from the empty recency list, inserting f1, then f2, then
f1 again (f1 and f2 having distinct paths) via the `addRecentFolder` list
update yields exactly `[f1, f2]`: the old entry for f1's path is removed,
f1 is re-prepended at position 0, and the length is 2, not 3. -/
theorem claim_c1_insert_promote (f1 f2 : Folder) (h : f1.path ≠ f2.path) :
    insertOrPromote (insertOrPromote (insertOrPromote [] f1) f2) f1 = [f1, f2] ∧
    (insertOrPromote (insertOrPromote (insertOrPromote [] f1) f2) f1).length = 2 := by
  have h1 : (f1.path != f2.path) = true := by simp [h]
  have h2 : (f2.path != f1.path) = true := by simp [Ne.symm h]
  have h3 : (f1.path != f1.path) = false := by simp
  have s1 : insertOrPromote [] f1 = [f1] := rfl
  have s2 : insertOrPromote [f1] f2 = [f2, f1] := by
    unfold insertOrPromote
    rw [show List.filter (fun f => f.path != f2.path) [f1] = [f1] from by
      simp [List.filter_cons, h1]]
    rfl
  have s3 : insertOrPromote [f2, f1] f1 = [f1, f2] := by
    unfold insertOrPromote
    rw [show List.filter (fun f => f.path != f1.path) [f2, f1] = [f2] from by
      simp [List.filter_cons, h2, h3]]
    rfl
  refine ⟨?_, ?_⟩
  · rw [s1, s2, s3]
  · rw [s1, s2, s3]
    rfl

/-- Witness for C1 at concrete folders with distinct paths. -/
theorem claim_c1_insert_promote_witness :
    (⟨"p1", "/w/p1"⟩ : Folder).path ≠ (⟨"p2", "/w/p2"⟩ : Folder).path ∧
    insertOrPromote (insertOrPromote (insertOrPromote [] ⟨"p1", "/w/p1"⟩) ⟨"p2", "/w/p2"⟩)
      ⟨"p1", "/w/p1"⟩ = [⟨"p1", "/w/p1"⟩, ⟨"p2", "/w/p2"⟩] :=
  ⟨by decide,
   (claim_c1_insert_promote ⟨"p1", "/w/p1"⟩ ⟨"p2", "/w/p2"⟩ (by decide)).1⟩

/-- C2: a sequence of more than ten inserts with pairwise distinct paths,
starting from the empty list, leaves exactly the ten most recently
inserted folders in most-recent-first order; and a single insert never
produces a list longer than the capacity. -/
theorem claim_c2_capacity (fs : List Folder)
    (hd : fs.Pairwise (fun a b => a.path ≠ b.path)) (hl : 10 < fs.length) :
    insertAll fs = fs.reverse.take MAX_RECENT_FOLDERS ∧
    (insertAll fs).length = MAX_RECENT_FOLDERS ∧
    ∀ (l : List Folder) (f : Folder),
      (insertOrPromote l f).length ≤ MAX_RECENT_FOLDERS := by
  refine ⟨insertAll_pairwise_eq fs hd, ?_, ?_⟩
  · rw [insertAll_pairwise_eq fs hd, List.length_take, List.length_reverse]
    simp only [MAX_RECENT_FOLDERS]
    omega
  · intro l f
    unfold insertOrPromote
    rw [List.length_take]
    exact Nat.min_le_left _ _

/-- Witness for C2 at eleven concrete distinct folders. -/
theorem claim_c2_capacity_witness :
    10 < fs11.length ∧ (insertAll fs11).length = MAX_RECENT_FOLDERS :=
  ⟨by decide, (claim_c2_capacity fs11 (by decide) (by decide)).2.1⟩

/-- C5 counterexample: with two selected paths of which one launch fails,
the aggregate toast still is a success toast reporting "Opened 2 items"
built from the selection size; the actual success count is 1 and the
failure count of 1 is reported nowhere, refuting that the summary
distinguishes successes from failures. -/
theorem claim_c5_counterexample :
    (openAllSelected (["/a", "/b"]) (fun s => s == "/a")).toast =
      ⟨ToastStyle.success, "Opened 2 items in Cursor", "2 items opened"⟩ ∧
    ((runLaunches (["/a", "/b"]) (fun s => s == "/a")).filter (fun r => r.2)).length = 1 ∧
    ((runLaunches (["/a", "/b"]) (fun s => s == "/a")).filter (fun r => !r.2)).length = 1 := by
  decide

/-- C5 amended: for a non-empty selection every path is attempted, in
order, regardless of earlier failures (per-item isolation), but the
aggregate toast does not report failures: it is independent of the launch
outcomes — identical to the all-success toast — and always success-styled,
with counts derived from the total selection size alone. -/
theorem claim_c5_batch_summary (items : List String) (launchOk : String → Bool)
    (h : items ≠ []) :
    (openAllSelected items launchOk).attempted = runLaunches items launchOk ∧
    (runLaunches items launchOk).map Prod.fst = items ∧
    (openAllSelected items launchOk).toast =
      (openAllSelected items (fun _ => true)).toast ∧
    (openAllSelected items launchOk).toast.style = ToastStyle.success := by
  have hlen : (items.length == 0) = false := by
    simp [List.length_eq_zero, h]
  exact ⟨by simp [openAllSelected, hlen], runLaunches_map_fst items launchOk,
    by simp [openAllSelected, hlen], by simp [openAllSelected, hlen]⟩

/-- Witness for C5's amended statement at a concrete selection. -/
theorem claim_c5_batch_summary_witness :
    (["/a", "/b"] : List String) ≠ [] ∧
    (openAllSelected (["/a", "/b"]) (fun s => s == "/a")).toast.style =
      ToastStyle.success :=
  ⟨by decide,
   (claim_c5_batch_summary (["/a", "/b"]) (fun s => s == "/a") (by decide)).2.2.2⟩

/-- C6: when the opener launch fails, both single-folder open variants
return the recency state (in-memory list and persisted storage) unchanged
— `addRecentFolder` is reached only on success — and show a failure toast
carrying the stringified underlying error. -/
theorem claim_c6_failure_leaves_state (st : RecencyState) (folder : Folder)
    (dir : DirRead) (launch : String → Except String Unit) (e : String)
    (h1 : launch folder.path = Except.error e)
    (h2 : launch (resolveOpenTarget folder.path dir) = Except.error e) :
    openInCursor st folder launch =
      (st, ⟨ToastStyle.failure, "Failed to open in Cursor", e⟩) ∧
    openInCursorV2 st folder dir launch =
      (st, ⟨ToastStyle.failure, "Failed to open in Cursor", e⟩) := by
  constructor
  · unfold openInCursor
    rw [h1]
  · cases hf : findWorkspaceFileInFolder folder.path dir with
    | none => simp [openInCursorV2, hf, h1]
    | some w =>
      have hw : launch w = Except.error e := by
        have hr : resolveOpenTarget folder.path dir = w := by
          unfold resolveOpenTarget
          rw [hf]
          rfl
        rw [← hr]
        exact h2
      simp [openInCursorV2, hf, hw]

/-- Witness for C6 with an always-failing launcher. -/
theorem claim_c6_failure_leaves_state_witness :
    openInCursor ⟨[], []⟩ ⟨"p", "/w/p"⟩ (fun _ => Except.error ("boom")) =
      (⟨[], []⟩, ⟨ToastStyle.failure, "Failed to open in Cursor", "boom"⟩) :=
  (claim_c6_failure_leaves_state ⟨[], []⟩ ⟨"p", "/w/p"⟩ DirRead.absent
    (fun _ => Except.error ("boom")) ("boom") rfl rfl).1

/-- C7: the open-target resolution: an absent folder resolves to the
folder's own path; with no matching `.code-workspace` child file the
folder's own path is used; otherwise the first match in enumeration order
(hence also the unique match when there is exactly one) is used, joined
onto the folder path. -/
theorem claim_c7_resolve_open_target (p : String) :
    resolveOpenTarget p DirRead.absent = p ∧
    (∀ list : List Dirent, list.filter isWorkspaceEntry = [] →
      resolveOpenTarget p (DirRead.entries list) = p) ∧
    (∀ (list : List Dirent) (e : Dirent) (rest : List Dirent),
      list.filter isWorkspaceEntry = e :: rest →
      resolveOpenTarget p (DirRead.entries list) = pathJoin p e.name) := by
  refine ⟨rfl, ?_, ?_⟩
  · intro list hfil
    have hfind : list.find? isWorkspaceEntry = none := by
      rw [find_eq_filter_head, hfil]
      rfl
    simp [resolveOpenTarget, findWorkspaceFileInFolder, hfind]
  · intro list e rest hfil
    have hfind : list.find? isWorkspaceEntry = some e := by
      rw [find_eq_filter_head, hfil]
      rfl
    simp [resolveOpenTarget, findWorkspaceFileInFolder, hfind]

/-- Witness for C7: two matching workspace files — the first in
enumeration order wins — and an absent folder. -/
theorem claim_c7_resolve_open_target_witness :
    resolveOpenTarget ("/tmp/A/proj") (DirRead.entries
      [⟨"b.code-workspace", EntryKind.file⟩, ⟨"a.code-workspace", EntryKind.file⟩,
       ⟨"x", EntryKind.directory⟩]) = "/tmp/A/proj/b.code-workspace" ∧
    resolveOpenTarget ("/tmp/A/proj") DirRead.absent = "/tmp/A/proj" := by
  constructor
  · exact (claim_c7_resolve_open_target ("/tmp/A/proj")).2.2
      [⟨"b.code-workspace", EntryKind.file⟩, ⟨"a.code-workspace", EntryKind.file⟩,
       ⟨"x", EntryKind.directory⟩]
      ⟨"b.code-workspace", EntryKind.file⟩ [⟨"a.code-workspace", EntryKind.file⟩]
      (by decide)
  · exact (claim_c7_resolve_open_target ("/tmp/A/proj")).1

/-- C8: scanning an existing root yields exactly its immediate child
directories — never files — as `{name := entry name, path := root/name}`
records, in enumeration order; roots are concatenated in configured
order; and the `x`,`y`,`z.txt` scenario. -/
theorem claim_c8_scan_only_directories (p : String) (list : List Dirent) :
    (∀ f : Folder,
      f ∈ getFoldersFromPath p (DirRead.entries list) ↔
        ∃ e, e ∈ list ∧ e.kind = EntryKind.directory ∧
          f = ⟨e.name, pathJoin p e.name⟩) ∧
    (∀ (r : String × DirRead) (rs : List (String × DirRead)),
      scanRoots (r :: rs) = getFoldersFromPath r.1 r.2 ++ scanRoots rs) ∧
    getFoldersFromPath ("/tmp/A") (DirRead.entries
      [⟨"x", EntryKind.directory⟩, ⟨"y", EntryKind.directory⟩,
       ⟨"z.txt", EntryKind.file⟩]) =
      [⟨"x", "/tmp/A/x"⟩, ⟨"y", "/tmp/A/y"⟩] := by
  refine ⟨?_, ?_, by decide⟩
  · intro f
    simp only [getFoldersFromPath, List.mem_map, List.mem_filter]
    constructor
    · rintro ⟨e, ⟨he, hdir⟩, rfl⟩
      refine ⟨e, he, ?_, rfl⟩
      simpa [Dirent.isDirectory] using hdir
    · rintro ⟨e, he, hdir, rfl⟩
      exact ⟨e, ⟨he, by simp [Dirent.isDirectory, hdir]⟩, rfl⟩
  · intro r rs
    simp [scanRoots]

/-- C9: the derived "other folders" view never contains a folder whose
path appears in the recency list. -/
theorem claim_c9_others_exclude_recent (folders recent : List Folder) (f : Folder)
    (h : f ∈ otherFolders folders recent) :
    f.path ∉ recent.map Folder.path := by
  intro hmem
  simp only [otherFolders, List.mem_filter, Bool.not_eq_true'] at h
  have h2 := h.2
  simp at h2
  rw [List.mem_map] at hmem
  obtain ⟨g, hg, hgp⟩ := hmem
  exact h2 g hg hgp

/-- Witness for C9 at a concrete scan result and recency list. -/
theorem claim_c9_others_exclude_recent_witness :
    (⟨"x", "/r/x"⟩ : Folder) ∈
      otherFolders [⟨"x", "/r/x"⟩, ⟨"y", "/r/y"⟩] [⟨"y", "/r/y"⟩] ∧
    (⟨"x", "/r/x"⟩ : Folder).path ∉ ([⟨"y", "/r/y"⟩] : List Folder).map Folder.path :=
  ⟨by decide,
   claim_c9_others_exclude_recent [⟨"x", "/r/x"⟩, ⟨"y", "/r/y"⟩] [⟨"y", "/r/y"⟩]
     ⟨"x", "/r/x"⟩ (by decide)⟩

/-- C10: the duplicated `addRecentFolder` variants of the two commands are
extensionally equal — same dedup-by-path, same prepend, same truncation to
ten — and persist under the same fixed storage key, so the two commands
agree on one persisted recency list. -/
theorem claim_c10_variants_agree :
    (∀ (l : List Folder) (f : Folder), insertOrPromote l f = insertOrPromoteV2 l f) ∧
    RECENT_FOLDERS_KEY = RECENT_FOLDERS_KEY_V2 ∧
    MAX_RECENT_FOLDERS = MAX_RECENT_FOLDERS_V2 ∧
    ∀ (st : RecencyState) (f : Folder), addRecentFolder st f = addRecentFolderV2 st f :=
  ⟨fun _ _ => rfl, rfl, rfl, fun _ _ => rfl⟩

theorem skipWs_cons (c : Char) (cs : List Char) (h : isWsChar c = false) :
    skipWs (c :: cs) = c :: cs := by
  simp [skipWs, h]

theorem parseValue_strlit (fuel : Nat) (X : List Char) :
    parseValue (fuel + 1) ('"' :: X) =
      (match takeStringBody X with
       | some (body, rest2) => some (JSValue.str (String.mk body), rest2)
       | none => none) := by
  simp only [parseValue]
  rw [skipWs_cons _ _ (by decide)]
  rfl

theorem parseValue_objstart (fuel : Nat) (X : List Char) :
    parseValue (fuel + 1) ('\x7b' :: X) = parseObjRest fuel X := by
  simp only [parseValue]
  rw [skipWs_cons _ _ (by decide)]
  rfl

theorem parseValue_arrstart (fuel : Nat) (X : List Char) :
    parseValue (fuel + 1) ('[' :: X) = parseArrayRest fuel X := by
  simp only [parseValue]
  rw [skipWs_cons _ _ (by decide)]
  rfl

theorem swQuote (X : List Char) : skipWs ('"' :: X) = '"' :: X := rfl

theorem swColon (X : List Char) : skipWs (':' :: X) = ':' :: X := rfl

theorem swComma (X : List Char) : skipWs (',' :: X) = ',' :: X := rfl

theorem swLbrace (X : List Char) : skipWs ('\x7b' :: X) = '\x7b' :: X := rfl

theorem swRbrace (X : List Char) : skipWs ('\x7d' :: X) = '\x7d' :: X := rfl

theorem swRbracket (X : List Char) : skipWs (']' :: X) = ']' :: X := rfl

theorem tbName (X : List Char) :
    takeStringBody ('n' :: 'a' :: 'm' :: 'e' :: '"' :: X) = some (['n', 'a', 'm', 'e'], X) := rfl

theorem tbPath (X : List Char) :
    takeStringBody ('p' :: 'a' :: 't' :: 'h' :: '"' :: X) = some (['p', 'a', 't', 'h'], X) := rfl

theorem jsonPlain_chars (s : String) (h : jsonPlain s = true) :
    ∀ c ∈ s.data, (c == '"') = false ∧ (c == '\\') = false := by
  intro c hc
  have h2 := h
  simp only [jsonPlain, List.all_eq_true] at h2
  have h3 := h2 c hc
  revert h3
  cases c == '"' <;> cases c == '\\' <;> simp

theorem takeStringBody_append (body rest : List Char)
    (h : ∀ c ∈ body, (c == '"') = false ∧ (c == '\\') = false) :
    takeStringBody (body ++ '"' :: rest) = some (body, rest) := by
  induction body with
  | nil => rfl
  | cons c t ih =>
    obtain ⟨hq, hb⟩ := h c (List.mem_cons_self c t)
    have ih2 := ih (fun d hd => h d (List.mem_cons_of_mem c hd))
    simp [takeStringBody, List.cons_append, hq, hb, ih2]

theorem parseValue_string (fuel : Nat) (s : String) (rest : List Char)
    (h : jsonPlain s = true) :
    parseValue (fuel + 1) ('"' :: (s.data ++ '"' :: rest)) = some (JSValue.str s, rest) := by
  rw [parseValue_strlit, takeStringBody_append s.data rest (jsonPlain_chars s h)]

theorem parseObjItems_path (fuel : Nat) (s : String) (rest : List Char)
    (hp : jsonPlain s = true) :
    parseObjItems (fuel + 2) ('"' :: 'p' :: 'a' :: 't' :: 'h' :: '"' :: ':' :: '"' ::
      (s.data ++ '"' :: '\x7d' :: rest)) = some ([("path", JSValue.str s)], rest) := by
  simp only [parseObjItems, swQuote, tbPath, swColon, swRbrace,
    parseValue_string, hp]
  rfl

theorem parseObjItems_name_path (fuel : Nat) (f : Folder) (rest : List Char)
    (hn : jsonPlain f.name = true) (hp : jsonPlain f.path = true) :
    parseObjItems (fuel + 3)
      ('"' :: 'n' :: 'a' :: 'm' :: 'e' :: '"' :: ':' :: '"' ::
        (f.name.data ++ '"' :: ',' :: '"' :: 'p' :: 'a' :: 't' :: 'h' :: '"' :: ':' :: '"' ::
          (f.path.data ++ '"' :: '\x7d' :: rest))) =
      some ([("name", JSValue.str f.name), ("path", JSValue.str f.path)], rest) := by
  simp only [parseObjItems, swQuote, tbName, swColon, swComma, parseValue_string, hn]
  simp only [parseObjItems, swQuote, tbPath, swColon, swRbrace, parseValue_string, hp]
  rfl

theorem parseObjRest_folder (fuel : Nat) (f : Folder) (rest : List Char)
    (hn : jsonPlain f.name = true) (hp : jsonPlain f.path = true) :
    parseObjRest (fuel + 4)
      ('"' :: 'n' :: 'a' :: 'm' :: 'e' :: '"' :: ':' :: '"' ::
        (f.name.data ++ '"' :: ',' :: '"' :: 'p' :: 'a' :: 't' :: 'h' :: '"' :: ':' :: '"' ::
          (f.path.data ++ '"' :: '\x7d' :: rest))) =
      some (encodeFolder f, rest) := by
  simp only [parseObjRest, swQuote, parseObjItems_name_path, hn, hp]
  rfl

theorem parseValue_folder (fuel : Nat) (f : Folder) (rest : List Char)
    (hn : jsonPlain f.name = true) (hp : jsonPlain f.path = true) :
    parseValue (fuel + 5) (folderChars f rest) = some (encodeFolder f, rest) := by
  simp only [folderChars]
  rw [show fuel + 5 = (fuel + 4) + 1 from rfl, parseValue_objstart]
  exact parseObjRest_folder fuel f rest hn hp

theorem parseArrayItems_succ (g : Nat) (cs : List Char) :
    parseArrayItems (g + 1) cs =
      (match parseValue g cs with
       | none => none
       | some (v, rest) =>
         match skipWs rest with
         | [] => none
         | c :: rest2 =>
           if c == ',' then
             match parseArrayItems g rest2 with
             | some (vs, rest3) => some (v :: vs, rest3)
             | none => none
           else if c == ']' then some ([v], rest2)
           else none) := rfl

theorem parseArrayItems_folders (l : List Folder)
    (hpl : ∀ f ∈ l, jsonPlain f.name = true ∧ jsonPlain f.path = true)
    (hne : l ≠ []) :
    ∀ (fuel : Nat) (rest : List Char),
      parseArrayItems (6 * l.length + fuel) (itemsChars l (']' :: rest)) =
        some (l.map encodeFolder, rest) := by
  induction l with
  | nil => exact absurd rfl hne
  | cons f t ih =>
    obtain ⟨hn, hp⟩ := hpl f (List.mem_cons_self f t)
    cases t with
    | nil =>
      intro fuel rest
      simp only [List.length_cons, List.length_nil]
      rw [show 6 * (0 + 1) + fuel = (fuel + 5) + 1 from by omega]
      rw [parseArrayItems_succ]
      simp only [itemsChars]
      rw [parseValue_folder fuel f (']' :: rest) hn hp]
      rfl
    | cons g t2 =>
      intro fuel rest
      have ih2 := ih (fun d hd => hpl d (List.mem_cons_of_mem f hd)) (by simp) (fuel + 5) rest
      simp only [List.length_cons] at ih2 ⊢
      rw [show 6 * (t2.length + 1 + 1) + fuel = ((6 * (t2.length + 1) + fuel) + 5) + 1 from by
        omega]
      rw [parseArrayItems_succ]
      simp only [itemsChars]
      rw [parseValue_folder (6 * (t2.length + 1) + fuel) f
        (',' :: itemsChars (g :: t2) (']' :: rest)) hn hp]
      simp only [swComma]
      rw [show (6 * (t2.length + 1) + fuel) + 5 = 6 * (t2.length + 1) + (fuel + 5) from by omega]
      rw [ih2]
      rfl

theorem parseArrayRest_folders (l : List Folder)
    (hpl : ∀ f ∈ l, jsonPlain f.name = true ∧ jsonPlain f.path = true)
    (hne : l ≠ []) (fuel : Nat) (rest : List Char) :
    parseArrayRest ((6 * l.length + fuel) + 1) (itemsChars l (']' :: rest)) =
      some (JSValue.arr (l.map encodeFolder), rest) := by
  obtain ⟨f, t, rfl⟩ : ∃ f t, l = f :: t := by
    cases l with
    | nil => exact absurd rfl hne
    | cons a b => exact ⟨a, b, rfl⟩
  obtain ⟨Y, hY⟩ : ∃ Y, itemsChars (f :: t) (']' :: rest) = '\x7b' :: Y := by
    cases t with
    | nil => exact ⟨_, rfl⟩
    | cons g t2 => exact ⟨_, rfl⟩
  rw [hY]
  simp only [parseArrayRest, swLbrace]
  rw [← hY]
  rw [parseArrayItems_folders (f :: t) hpl hne fuel rest]
  rfl

theorem itemsChars_length_le (l : List Folder) (X : List Char) :
    X.length + 6 * l.length ≤ (itemsChars l X).length := by
  induction l generalizing X with
  | nil => simp [itemsChars]
  | cons f t ih =>
    cases t with
    | nil =>
      simp only [itemsChars, folderChars, List.length_cons, List.length_nil, List.length_append]
      omega
    | cons g t2 =>
      have h2 := ih X
      simp only [List.length_cons] at h2 ⊢
      simp only [itemsChars, folderChars, List.length_cons, List.length_append]
      omega

theorem dataMk (cs : List Char) : (String.mk cs).data = cs := rfl

theorem jsonParse_stringify (l : List Folder)
    (hpl : ∀ f ∈ l, jsonPlain f.name = true ∧ jsonPlain f.path = true) :
    jsonParse (stringifyFolders l) = some (JSValue.arr (l.map encodeFolder)) := by
  cases l with
  | nil => rfl
  | cons f t =>
    have hne : (f :: t) ≠ ([] : List Folder) := by simp
    have hlen := itemsChars_length_le (f :: t) (']' :: [])
    simp only [List.length_cons, List.length_nil] at hlen
    simp only [jsonParse, stringifyFolders, dataMk, List.length_cons]
    rw [parseValue_arrstart]
    have harr := parseArrayRest_folders (f :: t) hpl hne
      ((itemsChars (f :: t) (']' :: [])).length - 6 * (t.length + 1)) []
    simp only [List.length_cons] at harr
    rw [show (itemsChars (f :: t) (']' :: [])).length + 1 =
        ((6 * (t.length + 1) +
          ((itemsChars (f :: t) (']' :: [])).length - 6 * (t.length + 1))) + 1) from by
      omega]
    rw [harr]
    rfl

/-- Helper: reading back the key just written. -/
theorem storeGet_storeSet (storage : List (String × String)) (key value : String) :
    storeGet (storeSet storage key value) key = some value := by
  simp [storeGet, storeSet]

/-- Helper: the serialized recency list is never the empty string. -/
theorem stringifyFolders_ne_empty (l : List Folder) :
    (stringifyFolders l == "") = false := by
  rw [beq_eq_false_iff_ne]
  intro h
  have h2 : ('[' :: itemsChars l (']' :: [])) = [] := congrArg String.data h
  exact absurd h2 (by simp)

/-- C3: an `addRecentFolder` call writes the JSON serialization of the
updated list under the fixed storage key as part of the call itself, and
a load reading that persisted value back parses it to exactly the updated
list (for folders whose strings need no JSON escapes). -/
theorem claim_c3_persist_on_insert (st : RecencyState) (folder : Folder)
    (hpl : ∀ g ∈ folder :: st.recentFolders,
      jsonPlain g.name = true ∧ jsonPlain g.path = true) :
    storeGet (addRecentFolder st folder).storage RECENT_FOLDERS_KEY =
      some (stringifyFolders (addRecentFolder st folder).recentFolders) ∧
    loadRecent (storeGet (addRecentFolder st folder).storage RECENT_FOLDERS_KEY) =
      LoadRecentOutcome.installed
        (JSValue.arr ((addRecentFolder st folder).recentFolders.map encodeFolder)) := by
  have hupd : ∀ g ∈ insertOrPromote st.recentFolders folder,
      jsonPlain g.name = true ∧ jsonPlain g.path = true := by
    intro g hg
    rcases mem_insertOrPromote st.recentFolders folder g hg with h | h
    · exact h ▸ hpl folder (List.mem_cons_self _ _)
    · exact hpl g (List.mem_cons_of_mem _ h)
  have hget : storeGet (addRecentFolder st folder).storage RECENT_FOLDERS_KEY =
      some (stringifyFolders (insertOrPromote st.recentFolders folder)) := by
    simp [addRecentFolder, storeGet_storeSet]
  have hrec : (addRecentFolder st folder).recentFolders =
      insertOrPromote st.recentFolders folder := rfl
  constructor
  · rw [hget, hrec]
  · rw [hget, hrec]
    simp [loadRecent, stringifyFolders_ne_empty,
      jsonParse_stringify (insertOrPromote st.recentFolders folder) hupd]

/-- Witness for C3: inserting one folder into the empty state persists its
serialization under the key. -/
theorem claim_c3_persist_on_insert_witness :
    storeGet (addRecentFolder ⟨[], []⟩ ⟨"proj", "/tmp/proj"⟩).storage RECENT_FOLDERS_KEY =
      some (stringifyFolders [⟨"proj", "/tmp/proj"⟩]) :=
  (claim_c3_persist_on_insert ⟨[], []⟩ ⟨"proj", "/tmp/proj"⟩ (by decide)).1

/-- C4 counterexample: the stored string "5" is not a serialization of any
folder list — it parses to a JSON number and fails the folder-list shape
test — yet the load installs that number verbatim via `setRecentFolders`,
so the resulting in-memory recency value is not the empty list the claim
requires. -/
theorem claim_c4_counterexample :
    loadRecent (some ("5")) = LoadRecentOutcome.installed (JSValue.num 5) ∧
    isFolderListJson (JSValue.num 5) = false ∧
    recentAfterLoad (some ("5")) ≠ JSValue.arr [] := by
  refine ⟨rfl, rfl, ?_⟩
  rw [show recentAfterLoad (some ("5")) = JSValue.num 5 from rfl]
  simp

/-- C4 amended: a missing or empty stored value leaves the recency list
empty, and a stored value the JSON parser rejects is caught — the list
stays empty and a failure toast titled "Error reading folders" is shown,
with nothing thrown to the caller — but a stored value that parses as any
JSON at all is installed verbatim without shape validation, so only
syntactically malformed values degrade to the empty list. -/
theorem claim_c4_load_malformed :
    loadRecent none = LoadRecentOutcome.keptEmpty ∧
    loadRecent (some ("")) = LoadRecentOutcome.keptEmpty ∧
    (∀ s : String, (s == "") = false → jsonParse s = none →
      loadRecent (some s) = LoadRecentOutcome.parseError ("Error reading folders") ∧
      recentAfterLoad (some s) = JSValue.arr []) ∧
    (∀ (s : String) (v : JSValue), (s == "") = false → jsonParse s = some v →
      loadRecent (some s) = LoadRecentOutcome.installed v ∧
      recentAfterLoad (some s) = v) := by
  refine ⟨rfl, rfl, ?_, ?_⟩
  · intro s h1 h2
    constructor
    · simp [loadRecent, h1, h2]
    · simp [recentAfterLoad, loadRecent, h1, h2]
  · intro s v h1 h2
    constructor
    · simp [loadRecent, h1, h2]
    · simp [recentAfterLoad, loadRecent, h1, h2]

/-- Witness for C4's amended statement: a syntactically malformed value is
caught with the failure toast, and a well-formed empty array is installed. -/
theorem claim_c4_load_malformed_witness :
    loadRecent (some ("x")) = LoadRecentOutcome.parseError ("Error reading folders") ∧
    recentAfterLoad (some ("[]")) = JSValue.arr [] :=
  ⟨(claim_c4_load_malformed.2.2.1 "x" (by decide) rfl).1,
   (claim_c4_load_malformed.2.2.2 "[]" (JSValue.arr []) (by decide) rfl).2⟩

end Theorems
